import Mathlib

/-!
Verification development for the Veo3-Analyzer repository.

The data model is translated from `src/types.ts`; the prompt synthesis,
time formatting, scene locator and session state machine from
`src/App.tsx`; the analysis client from `src/services/geminiService.ts`.
JavaScript numbers for timestamps are modelled as rationals, strings as
`String`, optional fields as `Option`, thrown exceptions as `Except`,
and the host JSON parser / serializer (a standard-library concern,
out of scope per the spec) as explicit function parameters.
-/

namespace Veo3

/-- Data model from src/types.ts: one attributed line of dialogue. -/
structure DialogueLine where
  speaker : String
  line : String
  deriving DecidableEq

/-- Data model from src/types.ts: one scene of the analysis. -/
structure Scene where
  scene_id : Int
  timestamp_start_seconds : ℚ
  timestamp_end_seconds : ℚ
  description : String
  objects : List String
  actions : List String
  dialogue : Option (List DialogueLine)
  deriving DecidableEq

/-- Data model from src/types.ts: the root analysis object. -/
structure VideoAnalysis where
  title : String
  summary : String
  scenes : List Scene
  deriving DecidableEq

/-- Data model from src/types.ts: a derived shot prompt. -/
structure ShotPrompt where
  id : Int
  timestamp : String
  prompt : String
  scene : Scene
  deriving DecidableEq

/-- Model of JavaScript `String.prototype.padStart` with a single pad
character, as used in src/App.tsx line 20. -/
def padStart (s : String) (n : Nat) (c : Char) : String :=
  if n ≤ s.length then s else String.mk (List.replicate (n - s.length) c) ++ s

/-- Translation of `formatTime` (src/App.tsx lines 16-21).
`Math.floor` on the rational input is `Int.floor`; `Math.floor` of the
integer division is `Int.fdiv`; the JavaScript `%` on a non-negative
integer dividend is `Int.tmod`. -/
def formatTime (seconds : ℚ) : String :=
  let floorSeconds : Int := ⌊seconds⌋
  let m : Int := Int.fdiv floorSeconds 60
  let s : Int := Int.tmod floorSeconds 60
  toString m ++ ":" ++ padStart (toString s) 2 '0'

/-- Prompt text built for one scene, translated from the body of the
prompt-derivation `useEffect` (src/App.tsx lines 262-267). -/
def promptOfScene (sc : Scene) : String :=
  let base := "Cinematic shot: " ++ sc.description ++ "."
  let withDialogue :=
    match sc.dialogue with
    | some ds =>
      if 0 < ds.length then
        base ++ (" Dialogue: "
          ++ String.intercalate (" ")
              (ds.map (fun d => d.speaker ++ (": \"") ++ d.line ++ ("\"")))
          ++ ".")
      else base
    | none => base
  withDialogue ++ (" Prominent objects: " ++ String.intercalate (", ") sc.objects
    ++ (". Actions: ") ++ String.intercalate (", ") sc.actions ++ ".")

/-- ShotPrompt built for one scene (src/App.tsx lines 269-274). -/
def sceneToShotPrompt (sc : Scene) : ShotPrompt :=
  { id := sc.scene_id
    timestamp := formatTime sc.timestamp_start_seconds ++ " - "
      ++ formatTime sc.timestamp_end_seconds
    prompt := promptOfScene sc
    scene := sc }

/-- Prompt synthesis over a whole analysis: `analysis.scenes.map`
(src/App.tsx line 261). -/
def synthesize (a : VideoAnalysis) : List ShotPrompt :=
  a.scenes.map sceneToShotPrompt

/-- Spec-side formula for `formatTime`, following the words of the claim:
floor of seconds/60 in decimal, a colon, then floor of seconds mod 60 as
two zero-padded digits. -/
def formatTimeSpec (q : ℚ) : String :=
  toString ⌊q / 60⌋ ++ ":" ++ padStart (toString (⌊q⌋ % 60)) 2 '0'

/-- Spec-side formula for the synthesized prompt, following the words of
the claim: fixed-order concatenation of the description sentence, the
optional dialogue sentence, the objects sentence and the actions
sentence. -/
def promptSpec (sc : Scene) : String :=
  ("Cinematic shot: " ++ sc.description ++ ".")
  ++ (match sc.dialogue with
      | some ds =>
        if ds.isEmpty then ""
        else
          (" Dialogue: "
            ++ String.intercalate (" ")
                (ds.map (fun d => d.speaker ++ (": \"") ++ d.line ++ ("\"")))
            ++ ".")
      | none => "")
  ++ (" Prominent objects: " ++ String.intercalate (", ") sc.objects ++ ".")
  ++ (" Actions: " ++ String.intercalate (", ") sc.actions ++ ".")

/-- The literal search pattern of `handleShotPromptClick`
(src/App.tsx line 238). -/
def sceneIdentifier (sceneId : Int) : String :=
  "\"scene_id\": " ++ toString sceneId

/-- Model of JavaScript `String.prototype.indexOf` on the character
list of a string: index of the first occurrence of `needle` in `hay`,
or `none` where JavaScript returns -1. -/
def findSubstrIdx : List Char → List Char → Option Nat
  | [], needle => if needle <+: ([] : List Char) then some 0 else none
  | a :: t, needle =>
    if needle <+: a :: t then some 0
    else (findSubstrIdx t needle).map (· + 1)

/-- Scene locator from `handleShotPromptClick` (src/App.tsx lines
237-254): search for the literal pattern, and extend the span to the
next newline or to the end of the text. -/
def locateScene (jsonText : String) (sceneId : Int) : Option (Nat × Nat) :=
  match findSubstrIdx jsonText.data (sceneIdentifier sceneId).data with
  | none => none
  | some s =>
    match findSubstrIdx (jsonText.data.drop s) ['\n'] with
    | none => some (s, jsonText.data.length)
    | some k => some (s, s + k)

/-- Observable events of one `analyzeVideoWithGemini` run, in order:
the base64 encoding step, each progress-callback invocation, and the
issuing of the remote request. -/
inductive AnalyzeEv where
  | encode
  | progress (msg : String)
  | request
  deriving DecidableEq

/-- Recognizer for progress-callback invocations in a trace. -/
def isProgressEv : AnalyzeEv → Bool
  | .progress _ => true
  | _ => false

/-- Model of JavaScript `String.prototype.startsWith` on the character
list of a string, as used for the video/* MIME-type checks. -/
def strStartsWith (s pre : String) : Bool :=
  pre.data.isPrefixOf s.data

/-- Model of JavaScript `String.prototype.split(',')` on the character
list of a string. -/
def splitOnComma : List Char → List (List Char)
  | [] => [[]]
  | c :: t =>
    let r := splitOnComma t
    if c = ',' then [] :: r
    else
      match r with
      | [] => [[c]]
      | h :: r2 => (c :: h) :: r2

/-- Translation of `fileToBase64` (src/services/geminiService.ts lines
4-18): the payload after the first comma of the data URL, rejecting
when it is missing (`undefined`) or empty (both falsy in the source). -/
def fileToBase64 (dataUrl : String) : Except String String :=
  match (splitOnComma dataUrl.data)[1]? with
  | some s =>
    if s.isEmpty then .error ("Failed to convert file to base64.")
    else .ok (String.mk s)
  | none => .error ("Failed to convert file to base64.")

/-- The single progress message issued inside the analysis client
(src/services/geminiService.ts line 31). -/
def uploadingMsg : String :=
  "Uploading and analyzing with Gemini AI... This may take a moment."

/-- Translation of `analyzeVideoWithGemini` (src/services/geminiService.ts
lines 20-115). The host JSON.parse and JSON.stringify(| null, 2) are
abstracted as the parameters `jsonParse` and `stringifyPretty2`; the
outcome of the remote `generateContent` call is the parameter `remote`.
Returns the result together with the ordered event trace. -/
def analyzeVideoWithGemini {J : Type} (jsonParse : String → Option J)
    (stringifyPretty2 : J → String) (apiKey : Option String) (dataUrl : String)
    (remote : Except String String) : Except String String × List AnalyzeEv :=
  match apiKey with
  | none => (.error ("API_KEY environment variable not set."), [])
  | some _ =>
    match fileToBase64 dataUrl with
    | .error e => (.error e, [.encode])
    | .ok _ =>
      match remote with
      | .error e => (.error e, [.encode, .progress uploadingMsg, .request])
      | .ok jsonText =>
        match jsonParse jsonText with
        | some v =>
          (.ok (stringifyPretty2 v), [.encode, .progress uploadingMsg, .request])
        | none => (.ok jsonText, [.encode, .progress uploadingMsg, .request])

/-- An uploaded file: its declared MIME type and an addressable handle
to its bytes. -/
structure VideoFile where
  mimeType : String
  dataUrl : String
  deriving DecidableEq

/-- The two sub-views of the Ready state (src/App.tsx line 139). -/
inductive Tab where
  | prompts
  | rawJson
  deriving DecidableEq

/-- The React component state of `App` (src/App.tsx lines 131-140). -/
structure AppState where
  videoFile : Option VideoFile
  videoUrl : Option String
  jsonOutput : String
  isLoading : Bool
  error : Option String
  progressMessage : String
  shotPrompts : List ShotPrompt
  activeTab : Tab
  selectedSceneId : Option Int
  deriving DecidableEq

/-- The initial state of the session. -/
def initialState : AppState :=
  { videoFile := none
    videoUrl := none
    jsonOutput := ""
    isLoading := false
    error := none
    progressMessage := ""
    shotPrompts := []
    activeTab := .prompts
    selectedSceneId := none }

/-- The synchronous part of `handleFileUpload` (src/App.tsx lines
145-159), up to the `await` of the analysis call. The Boolean is true
exactly when the remote analysis call is issued. -/
def uploadStart (s : AppState) (f : VideoFile) : AppState × Bool :=
  if ¬ strStartsWith f.mimeType ("video/") then
    ({ s with error := some ("Please upload a valid video file.") }, false)
  else
    ({ s with videoFile := some f
              videoUrl := some f.dataUrl
              error := none
              isLoading := true
              jsonOutput := ""
              progressMessage := "Preparing video for analysis..." }, true)

/-- The continuation of `handleFileUpload` after the analysis call
settles (src/App.tsx lines 161-169): the try/catch arms followed by the
`finally` block. -/
def uploadFinish (s : AppState) (result : Except String String) : AppState :=
  let s1 :=
    match result with
    | .ok r => { s with progressMessage := "Formatting response...", jsonOutput := r }
    | .error e => { s with error := some e }
  { s1 with isLoading := false, progressMessage := "" }

/-- The guard of the drag-and-drop upload path (src/App.tsx lines
83-93): the file handed to `handleFileUpload`, or `none` when the UI
rejects the drop. -/
def handleDrop (loading : Bool) (files : List VideoFile) : Option VideoFile :=
  if loading || files.isEmpty then none
  else
    match files.head? with
    | some f => if strStartsWith f.mimeType ("video/") then some f else none
    | none => none

/-- The prompt list derived from the current JSON text, from the
prompt-derivation `useEffect` (src/App.tsx lines 257-285). The host
JSON.parse together with the untyped field accesses is abstracted as
`jsonParse`; the try/catch arm that clears the list is the `none`
branch. -/
def derivePrompts (jsonParse : String → Option VideoAnalysis)
    (jsonOutput : String) : List ShotPrompt :=
  if jsonOutput = "" then []
  else
    match jsonParse jsonOutput with
    | some analysis => synthesize analysis
    | none => []

/-- The same `useEffect` acting on the whole component state: the
prompt list is replaced, and the active tab switches to the prompts
view on a successful parse (src/App.tsx lines 276-277). -/
def applyPromptsEffect (jsonParse : String → Option VideoAnalysis)
    (s : AppState) : AppState :=
  if s.jsonOutput = "" then { s with shotPrompts := [] }
  else
    match jsonParse s.jsonOutput with
    | some analysis => { s with shotPrompts := synthesize analysis, activeTab := .prompts }
    | none => { s with shotPrompts := [] }

/-- A concrete pretty-printed JSON fragment whose first `"scene_id"`
line carries the id 10 and whose second carries the id 1. -/
def exText : String :=
  "\"scenes\":\n  \"scene_id\": 10,\n  \"scene_id\": 1,\n"

/-- A concrete scene used to instantiate universally quantified
theorems: empty object and action lists, one line of dialogue. -/
def sampleScene : Scene :=
  { scene_id := 1
    timestamp_start_seconds := 0
    timestamp_end_seconds := 8
    description := "A dog runs"
    objects := []
    actions := []
    dialogue := some [⟨"Person 1", "Hello"⟩] }

theorem findSubstrIdx_le_length (hay needle : List Char) (i : Nat)
    (h : findSubstrIdx hay needle = some i) : i ≤ hay.length := by
  induction hay generalizing i with
  | nil =>
    simp only [findSubstrIdx] at h
    split at h
    · cases h; simp
    · cases h
  | cons a t ih =>
    simp only [findSubstrIdx] at h
    split at h
    · cases h; simp
    · rw [Option.map_eq_some'] at h
      obtain ⟨j, hj, hji⟩ := h
      have := ih j hj
      simp only [List.length_cons]
      omega

theorem findSubstrIdx_some (hay needle : List Char) (i : Nat)
    (h : findSubstrIdx hay needle = some i) : needle <+: hay.drop i := by
  induction hay generalizing i with
  | nil =>
    simp only [findSubstrIdx] at h
    split at h
    · cases h; simpa [List.drop_nil] using ‹needle <+: ([] : List Char)›
    · cases h
  | cons a t ih =>
    simp only [findSubstrIdx] at h
    split at h
    · cases h; simpa using ‹needle <+: a :: t›
    · rw [Option.map_eq_some'] at h
      obtain ⟨j, hj, hji⟩ := h
      subst hji
      simpa [List.drop_succ_cons] using ih j hj

theorem findSubstrIdx_none (hay needle : List Char)
    (h : findSubstrIdx hay needle = none) :
    ∀ i, ¬ needle <+: hay.drop i := by
  induction hay with
  | nil =>
    simp only [findSubstrIdx] at h
    split at h
    · cases h
    · intro i
      simpa [List.drop_nil] using ‹¬ needle <+: ([] : List Char)›
  | cons a t ih =>
    simp only [findSubstrIdx] at h
    split at h
    · cases h
    · rw [Option.map_eq_none'] at h
      intro i
      match i with
      | 0 => simpa using ‹¬ needle <+: a :: t›
      | j + 1 => simpa [List.drop_succ_cons] using ih h j

theorem findSubstrIdx_min (hay needle : List Char) (i : Nat)
    (h : findSubstrIdx hay needle = some i) :
    ∀ j, j < i → ¬ needle <+: hay.drop j := by
  induction hay generalizing i with
  | nil =>
    simp only [findSubstrIdx] at h
    split at h
    · cases h; omega
    · cases h
  | cons a t ih =>
    simp only [findSubstrIdx] at h
    split at h
    · cases h; omega
    · rw [Option.map_eq_some'] at h
      obtain ⟨j0, hj0, hj0i⟩ := h
      subst hj0i
      intro j hj
      match j with
      | 0 => simpa using ‹¬ needle <+: a :: t›
      | j' + 1 =>
        have hj' : j' < j0 := by omega
        simpa [List.drop_succ_cons] using ih j0 hj0 j' hj'

theorem singleton_prefix_iff (l : List Char) (c : Char) (j : Nat) :
    [c] <+: l.drop j ↔ l[j]? = some c := by
  constructor
  · intro h
    obtain ⟨t, ht⟩ := h
    have : l.drop j = c :: t := by simpa using ht.symm
    have h0 : (l.drop j)[0]? = some c := by rw [this]; simp
    rwa [List.getElem?_drop, Nat.add_zero] at h0
  · intro h
    rw [List.getElem?_eq_some] at h
    obtain ⟨hlt, he⟩ := h
    refine ⟨l.drop (j + 1), ?_⟩
    rw [List.drop_eq_getElem_cons hlt, he]
    rfl

theorem mem_of_getElem?_eq_some {l : List Char} {j : Nat} {c : Char}
    (h : l[j]? = some c) : c ∈ l := by
  rw [List.getElem?_eq_some] at h
  obtain ⟨hlt, he⟩ := h
  exact he ▸ List.getElem_mem hlt

theorem formatTime_eq (q : ℚ) (z : Int) (hz : ⌊q⌋ = z) :
    formatTime q
      = toString (Int.fdiv z 60) ++ ":" ++ padStart (toString (Int.tmod z 60)) 2 '0' := by
  simp only [formatTime, hz]

/-- C1: `synthesize` yields exactly one ShotPrompt per scene, in source
order, with `id` the source scene's `scene_id` and `scene` the source
scene itself; scenes are never merged, reordered or deduplicated. -/
theorem synthesize_preserves_scenes (a : VideoAnalysis) (i : Nat) :
    (synthesize a).length = a.scenes.length
    ∧ ((synthesize a)[i]?).map ShotPrompt.id = (a.scenes[i]?).map Scene.scene_id
    ∧ ((synthesize a)[i]?).map ShotPrompt.scene = a.scenes[i]? := by
  refine ⟨by simp [synthesize], ?_, ?_⟩ <;>
  · rw [synthesize, List.getElem?_map]
    cases a.scenes[i]? <;> simp [sceneToShotPrompt]

/-- C3: for non-negative seconds, `formatTime` renders the floor of
seconds/60 in decimal, a colon, and the floor of seconds mod 60 as two
zero-padded digits, truncating fractional seconds; concrete values
0, 65, 599.9 and 125.7 format as stated, and each ShotPrompt's
timestamp is `formatTime start ++ " - " ++ formatTime end`. -/
theorem formatTime_floor_format (q : ℚ) (h : 0 ≤ q) :
    formatTime q = formatTimeSpec q
    ∧ formatTime 0 = "0:00"
    ∧ formatTime 65 = "1:05"
    ∧ formatTime (599.9 : ℚ) = "9:59"
    ∧ formatTime (125.7 : ℚ) = "2:05"
    ∧ ∀ sc : Scene, (sceneToShotPrompt sc).timestamp
        = formatTime sc.timestamp_start_seconds ++ " - "
          ++ formatTime sc.timestamp_end_seconds := by
  refine ⟨?_, ?_, ?_, ?_, ?_, fun sc => rfl⟩
  · have hfs : (0 : Int) ≤ ⌊q⌋ := Int.floor_nonneg.2 h
    have hq60 : (0 : ℚ) ≤ q / 60 := by positivity
    have hm : Int.fdiv ⌊q⌋ 60 = ⌊q / 60⌋ := by
      rw [Int.fdiv_eq_ediv _ (by norm_num)]
      have h1 : ⌊q⌋ = ((⌊q⌋₊ : ℕ) : Int) := by
        rw [← Int.floor_toNat q, Int.toNat_of_nonneg hfs]
      have h2 : ⌊q / 60⌋ = ((⌊q / 60⌋₊ : ℕ) : Int) := by
        rw [← Int.floor_toNat (q / 60), Int.toNat_of_nonneg (Int.floor_nonneg.2 hq60)]
      have h3 : ⌊q / 60⌋₊ = ⌊q⌋₊ / 60 := by
        simpa using Nat.floor_div_nat q 60
      rw [h1, h2, h3]
      omega
    have hs : Int.tmod ⌊q⌋ 60 = ⌊q⌋ % 60 := Int.tmod_eq_emod hfs (by norm_num)
    simp only [formatTime, formatTimeSpec, hm, hs]
  · rw [formatTime_eq 0 0 (by norm_num)]; decide
  · rw [formatTime_eq 65 65 (by norm_num)]; decide
  · rw [formatTime_eq (599.9 : ℚ) 599 (by norm_num [Int.floor_eq_iff])]; decide
  · rw [formatTime_eq (125.7 : ℚ) 125 (by norm_num [Int.floor_eq_iff])]; decide

theorem formatTime_floor_format_witness : formatTime 65 = "1:05" :=
  (formatTime_floor_format 0 le_rfl).2.2.1

theorem append_group_exists (w m s : String) (hms : m = " " ++ s) :
    ∃ p, w ++ m = p ++ s :=
  ⟨w ++ " ", by rw [hms, String.append_assoc]⟩

theorem append_mid_exists (w m tail s : String) (hms : m = " " ++ s) :
    ∃ p q, w ++ m ++ tail = p ++ s ++ q :=
  ⟨w ++ " ", tail, by rw [hms]; simp [String.append_assoc]⟩

theorem promptOfScene_eq_promptSpec (sc : Scene) :
    promptOfScene sc = promptSpec sc := by
  have hsplit : (". Actions: " : String) = "." ++ " Actions: " := by decide
  cases hd : sc.dialogue with
  | none =>
    simp only [promptOfScene, promptSpec, hd]
    simp [String.append_assoc, String.append_empty, String.empty_append]
    rw [hsplit, String.append_assoc]
  | some ds =>
    cases ds with
    | nil =>
      simp only [promptOfScene, promptSpec, hd, List.length_nil, List.isEmpty_nil,
        Nat.lt_irrefl, if_false, if_true]
      simp [String.append_assoc, String.append_empty, String.empty_append]
      rw [hsplit, String.append_assoc]
    | cons d0 ds' =>
      simp only [promptOfScene, promptSpec, hd, List.length_cons, List.isEmpty_cons,
        Nat.succ_pos, if_true]
      simp [String.append_assoc, String.append_empty, String.empty_append]
      rw [hsplit, String.append_assoc]

/-- C2: the synthesized prompt equals the fixed-order concatenation of
the claim; a scene with empty objects and actions yields a prompt
ending in the empty-join sentences, and the one-line dialogue example
yields text containing exactly the stated dialogue sentence. -/
theorem promptOfScene_formula (sc sc2 sc3 : Scene)
    (h2o : sc2.objects = []) (h2a : sc2.actions = [])
    (h3d : sc3.dialogue = some [⟨"Person 1", "Hello"⟩]) :
    promptOfScene sc = promptSpec sc
    ∧ (∃ p, promptOfScene sc2 = p ++ ("Prominent objects: . Actions: ."))
    ∧ (∃ p q, promptOfScene sc3 = p ++ ("Dialogue: Person 1: \"Hello\".") ++ q) := by
  refine ⟨promptOfScene_eq_promptSpec sc, ?_, ?_⟩
  · simp only [promptOfScene, h2o, h2a]
    exact append_group_exists _ _ _ (by decide)
  · simp only [promptOfScene, h3d]
    norm_num
    exact append_mid_exists _ _ _ _ (by decide)

theorem promptOfScene_formula_witness :
    ∃ p q, promptOfScene sampleScene = p ++ ("Dialogue: Person 1: \"Hello\".") ++ q :=
  (promptOfScene_formula sampleScene sampleScene sampleScene rfl rfl rfl).2.2

/-- C4: the scene locator searches for the literal pattern
`"scene_id": <id>`; when the pattern does not occur it returns nothing,
and when it returns a span `(s, e)`, the pattern occurs at `s`, `e` is
the offset of the next newline at or after `s` (the text's length when
there is none), and the span's slice contains the pattern. -/
theorem locateScene_found_span (text : String) (id : Int)
    (hnl : '\n' ∉ (sceneIdentifier id).data) :
    (locateScene text id = none ↔
      ∀ i, ¬ (sceneIdentifier id).data <+: text.data.drop i)
    ∧ ∀ s e, locateScene text id = some (s, e) →
        (sceneIdentifier id).data <+: text.data.drop s
        ∧ s ≤ e ∧ e ≤ text.data.length
        ∧ (∀ j, s ≤ j → j < e → text.data[j]? ≠ some '\n')
        ∧ (e < text.data.length → text.data[e]? = some '\n')
        ∧ (sceneIdentifier id).data <+: (text.data.drop s).take (e - s) := by
  set pat := (sceneIdentifier id).data with hpat
  cases hfind : findSubstrIdx text.data pat with
  | none =>
    have hloc : locateScene text id = none := by
      simp [locateScene, ← hpat, hfind]
    refine ⟨⟨fun _ i => findSubstrIdx_none _ _ hfind i, fun _ => hloc⟩, ?_⟩
    intro s e hse
    rw [hloc] at hse
    cases hse
  | some s0 =>
    have hocc : pat <+: text.data.drop s0 := findSubstrIdx_some _ _ _ hfind
    have hs0len : s0 ≤ text.data.length := findSubstrIdx_le_length _ _ _ hfind
    have hdroplen : (text.data.drop s0).length = text.data.length - s0 :=
      List.length_drop _ _
    cases hfind2 : findSubstrIdx (text.data.drop s0) ['\n'] with
    | none =>
      have hloc : locateScene text id = some (s0, text.data.length) := by
        simp [locateScene, ← hpat, hfind, hfind2]
      have hnonl : ∀ j : Nat, (text.data.drop s0)[j]? ≠ some '\n' := by
        intro j hj
        exact findSubstrIdx_none _ _ hfind2 j ((singleton_prefix_iff (text.data.drop s0) '\n' j).2 hj)
      constructor
      · rw [hloc]
        exact ⟨fun h => absurd h (Option.some_ne_none _),
          fun hall => absurd hocc (hall s0)⟩
      · intro s e hse
        rw [hloc] at hse
        simp only [Option.some.injEq, Prod.mk.injEq] at hse
        obtain ⟨rfl, rfl⟩ := hse
        refine ⟨hocc, hs0len, le_rfl, ?_, ?_, ?_⟩
        · intro j hsj hje hcon
          apply hnonl (j - s0)
          rw [List.getElem?_drop, show s0 + (j - s0) = j by omega]
          exact hcon
        · intro hlt
          exact absurd hlt (lt_irrefl _)
        · rw [List.take_of_length_le (by omega)]
          exact hocc
    | some k =>
      have hloc : locateScene text id = some (s0, s0 + k) := by
        simp [locateScene, ← hpat, hfind, hfind2]
      have hklen : k ≤ (text.data.drop s0).length :=
        findSubstrIdx_le_length _ _ _ hfind2
      have hnl_at : (text.data.drop s0)[k]? = some '\n' :=
        (singleton_prefix_iff (text.data.drop s0) '\n' k).1 (findSubstrIdx_some _ _ _ hfind2)
      have hnl_before : ∀ j', j' < k → (text.data.drop s0)[j']? ≠ some '\n' := by
        intro j' hj' hcon
        exact findSubstrIdx_min _ _ _ hfind2 j' hj'
          ((singleton_prefix_iff (text.data.drop s0) '\n' j').2 hcon)
      have hklen' : k < (text.data.drop s0).length := by
        obtain ⟨h, -⟩ := List.getElem?_eq_some.1 hnl_at
        exact h
      have hpatk : pat.length ≤ k := by
        by_contra hlt
        push_neg at hlt
        obtain ⟨t, ht⟩ := hocc
        have hk : (text.data.drop s0)[k]? = pat[k]? := by
          rw [← ht, List.getElem?_append, if_pos hlt]
        rw [hnl_at] at hk
        exact hnl (mem_of_getElem?_eq_some hk.symm)
      constructor
      · rw [hloc]
        exact ⟨fun h => absurd h (Option.some_ne_none _),
          fun hall => absurd hocc (hall s0)⟩
      · intro s e hse
        rw [hloc] at hse
        simp only [Option.some.injEq, Prod.mk.injEq] at hse
        obtain ⟨rfl, rfl⟩ := hse
        refine ⟨hocc, Nat.le_add_right _ _, by omega, ?_, ?_, ?_⟩
        · intro j hsj hje hcon
          apply hnl_before (j - s0) (by omega)
          rw [List.getElem?_drop, show s0 + (j - s0) = j by omega]
          exact hcon
        · intro _
          rw [← List.getElem?_drop]
          exact hnl_at
        · rw [List.prefix_take_iff]
          exact ⟨hocc, by omega⟩

theorem locateScene_found_span_witness :
    (sceneIdentifier 10).data <+: exText.data.drop 12 :=
  ((locateScene_found_span exText 10 (by decide)).2 12 27 (by decide)).1

/-- C10: the locator always selects the first textual occurrence of the
undelimited pattern; concretely, locating scene_id 1 in a text whose
first occurrence of the pattern lies inside the line `"scene_id": 10`
returns the span of that line. -/
theorem locateScene_first_occurrence :
    (∀ (text : String) (id : Int) (s e : Nat), locateScene text id = some (s, e) →
      ∀ j, j < s → ¬ (sceneIdentifier id).data <+: text.data.drop j)
    ∧ locateScene exText 1 = some (12, 27) := by
  constructor
  · intro text id s e hse j hj
    cases hfind : findSubstrIdx text.data (sceneIdentifier id).data with
    | none =>
      rw [locateScene, hfind] at hse
      cases hse
    | some s0 =>
      cases hfind2 : findSubstrIdx (text.data.drop s0) ['\n'] with
      | none =>
        simp only [locateScene, hfind, hfind2, Option.some.injEq,
          Prod.mk.injEq] at hse
        obtain ⟨rfl, -⟩ := hse
        exact findSubstrIdx_min _ _ _ hfind j hj
      | some k =>
        simp only [locateScene, hfind, hfind2, Option.some.injEq,
          Prod.mk.injEq] at hse
        obtain ⟨rfl, -⟩ := hse
        exact findSubstrIdx_min _ _ _ hfind j hj
  · decide

theorem locateScene_first_occurrence_witness :
    ¬ (sceneIdentifier 1).data <+: exText.data.drop 5 :=
  locateScene_first_occurrence.1 exText 1 12 27 (by decide) 5 (by decide)

/-- C5: the shot-prompt list is a pure projection of the current JSON
text: the effect recomputes it from the text alone, empty or
unparsable text yields the empty list, and a successful parse yields
the synthesized list; no exception escapes (the embedding is total). -/
theorem derivePrompts_projection (p : String → Option VideoAnalysis)
    (s : AppState) (a : VideoAnalysis) :
    (applyPromptsEffect p s).shotPrompts = derivePrompts p s.jsonOutput
    ∧ derivePrompts p ("") = []
    ∧ (p s.jsonOutput = none → derivePrompts p s.jsonOutput = [])
    ∧ (s.jsonOutput ≠ "" → p s.jsonOutput = some a →
        derivePrompts p s.jsonOutput = synthesize a) := by
  refine ⟨?_, by simp [derivePrompts], ?_, ?_⟩
  · by_cases hj : s.jsonOutput = ""
    · simp only [applyPromptsEffect, derivePrompts, hj, reduceIte]
    · simp only [applyPromptsEffect, derivePrompts, hj, reduceIte]
      cases p s.jsonOutput <;> rfl
  · intro hn
    by_cases hj : s.jsonOutput = "" <;> simp [derivePrompts, hj, hn]
  · intro hj ha
    simp [derivePrompts, hj, ha]

theorem derivePrompts_projection_witness :
    derivePrompts (fun _ => none) ("") = [] :=
  (derivePrompts_projection (fun _ => none) initialState ⟨"", "", []⟩).2.1

/-- C6: with no API key configured the analysis client fails with the
fixed message and an empty event trace (before any encoding or network
work); a remote error is propagated unchanged; and the session records
the propagated message verbatim in its error field, as in the
"rate limited" scenario. -/
theorem analyze_error_handling :
    (∀ (J : Type) (jsonParse : String → Option J) (pretty : J → String)
        (dataUrl : String) (remote : Except String String),
        analyzeVideoWithGemini jsonParse pretty none dataUrl remote
          = (.error ("API_KEY environment variable not set."), []))
    ∧ (∀ (J : Type) (jsonParse : String → Option J) (pretty : J → String)
        (k dataUrl b e : String), fileToBase64 dataUrl = .ok b →
        (analyzeVideoWithGemini jsonParse pretty (some k) dataUrl (.error e)).1
          = .error e)
    ∧ (∀ (s : AppState) (e : String),
        (uploadFinish s (.error e)).error = some e
        ∧ (uploadFinish s (.error e)).isLoading = false) := by
  refine ⟨fun _ _ _ _ _ => rfl, ?_, fun s e => ⟨rfl, rfl⟩⟩
  intro J jp pr k dataUrl b e henc
  simp [analyzeVideoWithGemini, henc]

theorem analyze_error_handling_witness :
    (analyzeVideoWithGemini (fun (_ : String) => (none : Option Unit)) (fun _ => "")
        (some ("k")) ("data:video/mp4;base64,QUFB") (.error ("rate limited"))).1
      = .error ("rate limited") :=
  analyze_error_handling.2.1 Unit (fun _ => none) (fun _ => "") ("k")
    ("data:video/mp4;base64,QUFB") ("QUFB") ("rate limited") rfl

/-- C7: once the remote call succeeds, the client returns the response
text re-serialized by the pretty printer when it parses as JSON, and
the raw text completely unchanged otherwise; it never fails on
unparsable response text. -/
theorem analyze_pretty_or_raw (J : Type) (jsonParse : String → Option J)
    (pretty : J → String) (k dataUrl b text : String)
    (henc : fileToBase64 dataUrl = .ok b) :
    (∀ v, jsonParse text = some v →
      (analyzeVideoWithGemini jsonParse pretty (some k) dataUrl (.ok text)).1
        = .ok (pretty v))
    ∧ (jsonParse text = none →
      (analyzeVideoWithGemini jsonParse pretty (some k) dataUrl (.ok text)).1
        = .ok text)
    ∧ ∃ r, (analyzeVideoWithGemini jsonParse pretty (some k) dataUrl (.ok text)).1
        = .ok r := by
  refine ⟨?_, ?_, ?_⟩
  · intro v hv
    simp [analyzeVideoWithGemini, henc, hv]
  · intro hv
    simp [analyzeVideoWithGemini, henc, hv]
  · cases hv : jsonParse text with
    | some v => exact ⟨pretty v, by simp [analyzeVideoWithGemini, henc, hv]⟩
    | none => exact ⟨text, by simp [analyzeVideoWithGemini, henc, hv]⟩

theorem analyze_pretty_or_raw_witness :
    (analyzeVideoWithGemini (fun (_ : String) => (none : Option Unit)) (fun _ => "")
        (some ("k")) ("data:video/mp4;base64,QUFB") (.ok ("not json"))).1
      = .ok ("not json") :=
  (analyze_pretty_or_raw Unit (fun _ => none) (fun _ => "") ("k")
    ("data:video/mp4;base64,QUFB") ("QUFB") ("not json") rfl).2.1 rfl

/-- C8 counterexample: a run of the analysis client that reaches the
remote request (the trace contains the request event) invokes the
progress callback only once, not at least twice as claimed. -/
theorem analyze_progress_counterexample :
    AnalyzeEv.request ∈ (analyzeVideoWithGemini (fun (_ : String) => (none : Option Unit))
        (fun _ => "") (some ("k")) ("data:video/mp4;base64,QUFB") (.ok ("x"))).2
    ∧ ¬ 2 ≤ ((analyzeVideoWithGemini (fun (_ : String) => (none : Option Unit))
        (fun _ => "") (some ("k")) ("data:video/mp4;base64,QUFB") (.ok ("x"))).2.countP
          isProgressEv) := by
  decide

/-- C8 amended: every invocation of the analysis client that reaches
the remote request invokes the progress callback exactly once, before
the request is sent; no invocation occurs between the request and the
response. -/
theorem analyze_progress_single (J : Type) (jsonParse : String → Option J)
    (pretty : J → String) (k dataUrl b : String) (remote : Except String String)
    (henc : fileToBase64 dataUrl = .ok b) :
    (analyzeVideoWithGemini jsonParse pretty (some k) dataUrl remote).2
      = [.encode, .progress uploadingMsg, .request]
    ∧ ((analyzeVideoWithGemini jsonParse pretty (some k) dataUrl remote).2).countP
        isProgressEv = 1 := by
  cases remote with
  | error e =>
    refine ⟨by simp [analyzeVideoWithGemini, henc], ?_⟩
    simp [analyzeVideoWithGemini, henc, List.countP, List.countP.go, isProgressEv]
  | ok text =>
    cases hv : jsonParse text with
    | some v =>
      refine ⟨by simp [analyzeVideoWithGemini, henc, hv], ?_⟩
      simp [analyzeVideoWithGemini, henc, hv, List.countP, List.countP.go, isProgressEv]
    | none =>
      refine ⟨by simp [analyzeVideoWithGemini, henc, hv], ?_⟩
      simp [analyzeVideoWithGemini, henc, hv, List.countP, List.countP.go, isProgressEv]

theorem analyze_progress_single_witness :
    (analyzeVideoWithGemini (fun (_ : String) => (none : Option Unit)) (fun _ => "")
        (some ("k")) ("data:video/mp4;base64,QUFB") (.ok ("x"))).2
      = [.encode, .progress uploadingMsg, .request] :=
  (analyze_progress_single Unit (fun _ => none) (fun _ => "") ("k")
    ("data:video/mp4;base64,QUFB") ("QUFB") (.ok ("x")) rfl).1

/-- C9 counterexample: after a first upload has put the session into
the Analyzing state (isLoading is true), a second call of the core
upload handler still issues a new remote analysis call: the handler
itself performs no in-flight guard. -/
theorem uploadStart_no_guard_counterexample :
    ((uploadStart initialState ⟨"video/mp4", "blob:1"⟩).1).isLoading = true
    ∧ (uploadStart (uploadStart initialState ⟨"video/mp4", "blob:1"⟩).1
        ⟨"video/mp4", "blob:2"⟩).2 = true := by
  decide

/-- C9 amended: the core upload handler performs no in-flight guard: it
issues a new analysis call for every video/* file regardless of the
Analyzing state; overlapping requests are prevented only by the UI
layer, whose drop handler refuses files while loading. -/
theorem uploadStart_no_guard (s : AppState) (f : VideoFile)
    (hf : strStartsWith f.mimeType ("video/") = true) :
    ((uploadStart s f).2 = true ∧ ((uploadStart s f).1).isLoading = true)
    ∧ ∀ files, handleDrop true files = none := by
  refine ⟨?_, fun files => rfl⟩
  simp [uploadStart, hf]

theorem uploadStart_no_guard_witness :
    (uploadStart initialState ⟨"video/mp4", "blob:3"⟩).2 = true :=
  (uploadStart_no_guard initialState ⟨"video/mp4", "blob:3"⟩ (by decide)).1.1

end Veo3
